import Mathlib

/-!
Verification of the `api/analyze-haiku.js` request handler (options screener).

The JavaScript handler is shallowly embedded as executable Lean definitions:

* JS values flowing through the signal pipeline are modelled by `Json`
  (with an explicit `jsUndefined` constructor for JavaScript `undefined`).
* JS numbers are modelled by `Rat`.  All numeric inputs exercised by the
  theorems are short terminating decimals, on which exact rational
  arithmetic and the decimal printing below agree with IEEE-754 double
  arithmetic and JS number-to-string conversion.
* The Anthropic gateway is an oracle `gw : Nat → Except String String`
  giving, for the i-th ticker, either the reply text of the model call or
  the message of a thrown gateway error.
* Ambient time (the 3-month expiration date and the response timestamp)
  is passed in as opaque string parameters; no claim depends on it.
-/

attribute [local semireducible] Rat.mul Rat.add Rat.sub Rat.inv

/-- A JavaScript value, as produced by `JSON.parse` and mutated by the
handler (`jsUndefined` models JavaScript `undefined`, which `JSON.parse` never
produces but property reads on absent keys do). -/
inductive Json where
  | jsUndefined : Json
  | null : Json
  | bool : Bool → Json
  | num : Rat → Json
  | str : String → Json
  | arr : List Json → Json
  | obj : List (String × Json) → Json

/-- Property lookup in an ordered field list: first binding wins
(field lists built by `mkObjFields`/`setF` never contain duplicates). -/
def getF : List (String × Json) → String → Json
  | [], _ => .jsUndefined
  | (k, v) :: fs, key => if k = key then v else getF fs key

/-- JS property read `o[key]`: `undefined` on absent keys and on
non-objects (the handler only reads properties of parsed objects). -/
def Json.getField : Json → String → Json
  | .obj fs, key => getF fs key
  | _, _ => .jsUndefined

/-- Property assignment on a field list: overwrite in place if the key is
present (keeping its position, as JS objects do), else append. -/
def setF : List (String × Json) → String → Json → List (String × Json)
  | [], k, v => [(k, v)]
  | (k0, v0) :: fs, k, v => if k0 = k then (k0, v) :: fs else (k0, v0) :: setF fs k v

/-- JS property write `o[key] = v` (the handler only assigns onto parsed
objects, so the non-object case is inert). -/
def Json.setField : Json → String → Json → Json
  | .obj fs, k, v => .obj (setF fs k v)
  | j, _, _ => j

/-- Collapse duplicate keys the way a JS object literal / `JSON.parse`
does: the last value wins, the first occurrence fixes the position. -/
def mkObjFields (fs : List (String × Json)) : List (String × Json) :=
  fs.foldl (fun acc kv => setF acc kv.1 kv.2) []

/-- JS truthiness of the modelled values. -/
def jsTruthy : Json → Bool
  | .jsUndefined => false
  | .null => false
  | .bool b => b
  | .num q => !(q == 0)
  | .str s => !(s == "")
  | .arr _ => true
  | .obj _ => true

/-! ## JS number printing -/

/-- Floor of a rational as an integer (`Int.fdiv` is floor division). -/
def ratFloor (q : Rat) : Int := Int.fdiv q.num (q.den : Int)

/-- Left-pad a string with zeros to width `k`. -/
def pad0 (k : Nat) (s : String) : String :=
  String.mk (List.replicate (k - s.length) '0') ++ s

/-- Render the rational `n / 10^k` in plain decimal notation with exactly
`k` digits after the point (no point when `k = 0`). -/
def ratDotString (n : Int) (k : Nat) : String :=
  let sgn := if n < 0 then "-" else ""
  let m := n.natAbs
  if k = 0 then sgn ++ toString m
  else sgn ++ toString (m / 10 ^ k) ++ "." ++ pad0 k (toString (m % 10 ^ k))

/-- Model of `Number.prototype.toFixed(k)`: round to `k` decimals, ties toward the
larger candidate (ECMA-262 picks the larger `n` on a tie), then print with
exactly `k` decimals. -/
def toFixed (q : Rat) (k : Nat) : String :=
  ratDotString (ratFloor (q * 10 ^ k + 1 / 2)) k

/-- Default JS number-to-string conversion (template-literal
interpolation), for numbers whose decimal expansion terminates: integers
print without a point, other terminating decimals print their shortest
decimal expansion, which is what JS prints for the short decimal inputs
exercised here.  Inputs with non-terminating expansions are not produced
by any theorem in this file. -/
def ratToJs (q : Rat) : String :=
  if q.den = 1 then toString q.num
  else
    match (List.range 40).find? (fun k => (q * 10 ^ k).den = 1) with
    | some k => ratDotString (q * 10 ^ k).num k
    | none => toString q.num ++ "/" ++ toString q.den

/-- Template-literal interpolation of a possibly-absent numeric field:
JS renders `undefined` literally. -/
def jsNum : Option Rat → String
  | some q => ratToJs q
  | none => "undefined"

/-! ## A model of `JSON.parse`

Recursive-descent JSON parser over the character list, with a fuel
argument bounding the nesting depth (the top-level entry point supplies
`length + 1`, which is always sufficient because every recursive call
consumes at least one character first). -/

/-- JSON insignificant whitespace. -/
def isJsonWs (c : Char) : Bool :=
  c == ' ' || c == '\t' || c == '\n' || c == '\r'

/-- Skip JSON whitespace. -/
def skipWs (cs : List Char) : List Char := cs.dropWhile isJsonWs

/-- Value of a (non-empty) digit run. -/
def digitsVal (ds : List Char) : Nat :=
  ds.foldl (fun a c => a * 10 + (c.toNat - 48)) 0

/-- Value of a hex digit, if any. -/
def hexVal (c : Char) : Option Nat :=
  if c.isDigit then some (c.toNat - 48)
  else if 97 ≤ c.toNat ∧ c.toNat ≤ 102 then some (c.toNat - 87)
  else if 65 ≤ c.toNat ∧ c.toNat ≤ 70 then some (c.toNat - 55)
  else none

/-- Parse the body of a JSON string literal (the opening quote already
consumed), handling the escape sequences of the JSON grammar and
rejecting raw control characters, as `JSON.parse` does. -/
def parseStrAux (acc : List Char) : List Char → Option (String × List Char)
  | [] => none
  | c :: cs =>
    if c == '"' then some (String.mk acc.reverse, cs)
    else if c == '\\' then
      match cs with
      | [] => none
      | e :: cs2 =>
        if e == '"' then parseStrAux ('"' :: acc) cs2
        else if e == '\\' then parseStrAux ('\\' :: acc) cs2
        else if e == '/' then parseStrAux ('/' :: acc) cs2
        else if e == 'b' then parseStrAux ('\x08' :: acc) cs2
        else if e == 'f' then parseStrAux ('\x0c' :: acc) cs2
        else if e == 'n' then parseStrAux ('\n' :: acc) cs2
        else if e == 'r' then parseStrAux ('\r' :: acc) cs2
        else if e == 't' then parseStrAux ('\t' :: acc) cs2
        else if e == 'u' then
          match cs2 with
          | a :: b :: c2 :: d :: rest =>
            match hexVal a, hexVal b, hexVal c2, hexVal d with
            | some x, some y, some z, some w =>
                parseStrAux (Char.ofNat (((x * 16 + y) * 16 + z) * 16 + w) :: acc) rest
            | _, _, _, _ => none
          | _ => none
        else none
    else if c.toNat < 32 then none
    else parseStrAux (c :: acc) cs

/-- Parse the exponent digits (after `e`/`E`) and scale the mantissa. -/
def parseExpPart (mantissa : Rat) (cs : List Char) : Option (Rat × List Char) :=
  let (eneg, cs1) : Bool × List Char :=
    match cs with
    | '-' :: rest => (true, rest)
    | '+' :: rest => (false, rest)
    | _ => (false, cs)
  let eds := cs1.takeWhile Char.isDigit
  if eds = [] then none
  else
    let e := digitsVal eds
    some (if eneg then mantissa / 10 ^ e else mantissa * 10 ^ e, cs1.drop eds.length)

/-- Assemble a parsed number from its sign, integer digits and fraction
digits, then handle an optional exponent part. -/
def finishNumber (sgn : Rat) (ids fds : List Char) (cs3 : List Char) : Option (Rat × List Char) :=
  let mantissa : Rat :=
    sgn * ((digitsVal ids * 10 ^ fds.length + digitsVal fds : Nat) : Rat) / 10 ^ fds.length
  match cs3 with
  | 'e' :: rest => parseExpPart mantissa rest
  | 'E' :: rest => parseExpPart mantissa rest
  | _ => some (mantissa, cs3)

/-- Parse a JSON number (sign, integer part without leading zeros,
optional fraction, optional exponent) into an exact rational. -/
def parseNumber (cs : List Char) : Option (Rat × List Char) :=
  let (sgn, cs1) : Rat × List Char :=
    match cs with
    | '-' :: rest => (-1, rest)
    | _ => (1, cs)
  let ids := cs1.takeWhile Char.isDigit
  if ids = [] then none
  else if 1 < ids.length ∧ ids.headD '0' = '0' then none
  else
    match cs1.drop ids.length with
    | '.' :: rest =>
      let fds := rest.takeWhile Char.isDigit
      if fds = [] then none
      else finishNumber sgn ids fds (rest.drop fds.length)
    | cs2 => finishNumber sgn ids [] cs2

mutual

/-- Parse one JSON value (leading whitespace allowed). -/
def parseValue : Nat → List Char → Option (Json × List Char)
  | 0, _ => none
  | fuel + 1, cs0 =>
    match skipWs cs0 with
    | [] => none
    | c :: rest =>
      if c == 'n' then
        if rest.take 3 = ['u', 'l', 'l'] then some (.null, rest.drop 3) else none
      else if c == 't' then
        if rest.take 3 = ['r', 'u', 'e'] then some (.bool true, rest.drop 3) else none
      else if c == 'f' then
        if rest.take 4 = ['a', 'l', 's', 'e'] then some (.bool false, rest.drop 4) else none
      else if c == '"' then
        (parseStrAux [] rest).map (fun p => (.str p.1, p.2))
      else if c == '\x7b' then
        match skipWs rest with
        | '\x7d' :: r2 => some (.obj [], r2)
        | r1 => (parseMembers fuel r1).map (fun p => (.obj (mkObjFields p.1), p.2))
      else if c == '[' then
        match skipWs rest with
        | ']' :: r2 => some (.arr [], r2)
        | r1 => (parseElems fuel r1).map (fun p => (.arr p.1, p.2))
      else
        (parseNumber (c :: rest)).map (fun p => (.num p.1, p.2))

/-- Parse the members of a JSON object, up to and including the closing
brace. -/
def parseMembers : Nat → List Char → Option (List (String × Json) × List Char)
  | 0, _ => none
  | fuel + 1, cs0 =>
    match skipWs cs0 with
    | '"' :: rest =>
      match parseStrAux [] rest with
      | none => none
      | some (key, r1) =>
        match skipWs r1 with
        | ':' :: r2 =>
          match parseValue fuel r2 with
          | none => none
          | some (v, r3) =>
            match skipWs r3 with
            | ',' :: r4 => (parseMembers fuel r4).map (fun p => ((key, v) :: p.1, p.2))
            | '\x7d' :: r4 => some ([(key, v)], r4)
            | _ => none
        | _ => none
    | _ => none

/-- Parse the elements of a JSON array, up to and including the closing
bracket. -/
def parseElems : Nat → List Char → Option (List Json × List Char)
  | 0, _ => none
  | fuel + 1, cs0 =>
    match parseValue fuel cs0 with
    | none => none
    | some (v, r1) =>
      match skipWs r1 with
      | ',' :: r2 => (parseElems fuel r2).map (fun p => (v :: p.1, p.2))
      | ']' :: r2 => some ([v], r2)
      | _ => none

end

/-- Model of `JSON.parse`: parse one value and require only whitespace after it. -/
def parseJson (s : String) : Option Json :=
  match parseValue (s.length + 1) s.data with
  | some (v, rest) => if skipWs rest = [] then some v else none
  | none => none

/-! ## Extraction of a JSON candidate from the model reply

The handler cleans the reply with
`responseText.replace` of the two fence regexes followed by `trim`,
and then extracts `cleaned.match(/\{[\s\S]*\}/)`, i.e. the span from the
first opening brace to the last closing brace. -/

/-- Drop a single leading newline, if present (the `\n?` of the fence
regexes). -/
def dropNl : List Char → List Char
  | '\n' :: cs => cs
  | cs => cs

/-- One global-replace pass deleting every occurrence of the token
`t0 :: ts` together with an optional following newline, scanning left to
right and continuing after each deletion, as `String.replace(/tok\n?/g)`
does.  `fuel` bounds the number of steps; every step consumes at least
one character, so the wrappers pass the input length. -/
def stripTokF (t0 : Char) (ts : List Char) : Nat → List Char → List Char
  | _, [] => []
  | 0, cs => cs
  | fuel + 1, c :: cs =>
    if (c :: cs).take (ts.length + 1) = t0 :: ts then
      stripTokF t0 ts fuel (dropNl ((c :: cs).drop (ts.length + 1)))
    else c :: stripTokF t0 ts fuel cs

/-- The characters of the opening fence token after its leading
backtick. -/
def jsonFenceTail : List Char := "\x60\x60json".data

/-- The characters of the plain fence token after its leading
backtick. -/
def plainFenceTail : List Char := "\x60\x60".data

/-- Model of `.replace` with the global regex of a json fence and an optional newline. -/
def stripJsonFences (cs : List Char) : List Char :=
  stripTokF '\x60' jsonFenceTail cs.length cs

/-- Model of `.replace` with the global regex of a bare fence and an optional newline. -/
def stripPlainFences (cs : List Char) : List Char :=
  stripTokF '\x60' plainFenceTail cs.length cs

/-- Characters removed by `String.prototype.trim` (ASCII portion; the
strings exercised here contain no other Unicode whitespace). -/
def isJsTrimWs (c : Char) : Bool :=
  c == ' ' || c == '\t' || c == '\n' || c == '\r' || c == '\x0b' || c == '\x0c'

/-- Model of `.trim()`: drop whitespace from both ends. -/
def jsTrim (cs : List Char) : List Char :=
  ((cs.dropWhile isJsTrimWs).reverse.dropWhile isJsTrimWs).reverse

/-- Model of the brace regex match on the cleaned reply: the span from the first brace to the
last `}`, when the string has some `{` with a `}` after it (the greedy
`[\s\S]*` backtracks to the last closing brace). -/
def braceMatch (cs : List Char) : Option (List Char) :=
  match ((cs.dropWhile (fun c => !(c == '\x7b'))).reverse.dropWhile
      (fun c => !(c == '\x7d'))).reverse with
  | [] => none
  | c :: rest => some (c :: rest)

/-- The `cleanedResponse` / `jsonMatch` pipeline of the handler: strip
fences, trim, and take the first-brace-to-last-brace span. -/
def extractCandidate (responseText : String) : Option String :=
  (braceMatch (jsTrim (stripPlainFences (stripJsonFences responseText.data)))).map
    String.mk

/-- Extraction followed by `JSON.parse` of the matched span: the reply
text parses to a structured object iff this returns `some`. -/
def parseResponse (responseText : String) : Option Json :=
  (extractCandidate responseText).bind parseJson

/-! ## The parse algorithm as the spec words it (for comparison)

The spec describes an ordered three-attempt algorithm; the code instead
performs the single regex pipeline above.  The following definitions are
used only to compare the two. -/

/-- The suffix after the first occurrence of `tok`, if any. -/
def afterTok (tok : List Char) : List Char → Option (List Char)
  | [] => none
  | c :: cs =>
    if (c :: cs).take tok.length = tok then some ((c :: cs).drop tok.length)
    else afterTok tok cs

/-- The prefix before the first occurrence of `tok`, if any. -/
def beforeTok (tok : List Char) : List Char → Option (List Char)
  | [] => none
  | c :: cs =>
    if (c :: cs).take tok.length = tok then some []
    else (beforeTok tok cs).map (c :: ·)

/-- The first balanced brace-delimited block: scan from the first `{`
with a depth counter to its matching `}`. -/
def balAux : List Char → Nat → List Char → Option (List Char)
  | [], _, _ => none
  | c :: cs, depth, acc =>
    if c == '\x7d' then
      if depth = 1 then some (c :: acc).reverse
      else balAux cs (depth - 1) (c :: acc)
    else if c == '\x7b' then balAux cs (depth + 1) (c :: acc)
    else balAux cs depth (c :: acc)

/-- First top-level brace-delimited substring of the text. -/
def firstBraceBlock (cs : List Char) : Option (List Char) :=
  match cs.dropWhile (fun c => !(c == '\x7b')) with
  | [] => none
  | c :: rest => balAux rest 1 [c]

/-- Modelled from the spec (section 4.4), not present in the code: the
ordered three-attempt parse - strict `JSON.parse` of the full text, then
the contents of a markdown ```json fence, then the first top-level
brace-delimited substring. -/
def specOrderedParse (s : String) : Option Json :=
  match parseJson s with
  | some j => some j
  | none =>
    match (afterTok ("\x60\x60\x60json".data) s.data).bind
        (fun cs => (beforeTok ("\x60\x60\x60".data) cs).bind
          (fun inner => parseJson (String.mk inner))) with
    | some j => some j
    | none => (firstBraceBlock s.data).bind (fun cs => parseJson (String.mk cs))

/-! ## The technical-data record and the prompt builder -/

/-- One element of the `technical_data` array of the request.  Every field the
handler reads is optional: `none` models an absent key (JS `undefined`).
Numeric fields carry `Rat` (see the header comment). -/
structure Tech where
  current_price : Option Rat := none
  rsi : Option Rat := none
  macd : Option Rat := none
  macd_signal : Option Rat := none
  macd_histogram : Option Rat := none
  sma_20 : Option Rat := none
  sma_50 : Option Rat := none
  bb_upper : Option Rat := none
  bb_lower : Option Rat := none
  volume_ratio : Option Rat := none
  days_until_earnings : Option Rat := none
  technical_score : Option Rat := none
  score_reasons : Option (List String) := none
  company : Option String := none

/-- Model of `(currentPrice * 1.10).toFixed(2)`: with an absent price the JS
product is `NaN` and `toFixed` renders `"NaN"`. -/
def otmStrike (td : Tech) : String :=
  match td.current_price with
  | some p => toFixed (p * (11 / 10)) 2
  | none => "NaN"

/-- The earnings line value: `techData.days_until_earnings` with the
fallback text `Unknown (safe)` when falsy (absent or zero). -/
def earningsStr (td : Tech) : String :=
  match td.days_until_earnings with
  | some d => if d = 0 then "Unknown (safe)" else ratToJs d
  | none => "Unknown (safe)"

/-- Model of `techData.company || ticker` (absent and empty company are falsy). -/
def companyOr (td : Tech) (ticker : String) : String :=
  match td.company with
  | some c => if c = "" then ticker else c
  | none => ticker

/-- Fixed prompt text between the score-reasons line and the interpolated
ticker of the required-JSON block. -/
def promptCriteria : String :=
  "\n\nASSESSMENT CRITERIA:\n- Conservative scoring (8/10 minimum for BUY)\n- 10+ days until earnings required\n- Focus on momentum + trend alignment\n- Risk-adjusted recommendations\n\nProvide your assessment in EXACTLY this JSON format (no markdown, no extra text):\n\x7b\n  \"ticker\": \""

/-- Fixed prompt text between the interpolated ticker and the derived
strike price. -/
def promptShapeMid1 : String :=
  "\",\n  \"signal\": \"STRONG BUY | BUY | HOLD | AVOID\",\n  \"score\": 0-10,\n  \"callOption\": \x7b\n    \"strikePrice\": \""

/-- Fixed prompt text between the strike price and the expiration
date. -/
def promptShapeMid2 : String :=
  "\",\n    \"expiration\": \""

/-- Fixed prompt tail after the expiration date. -/
def promptShapeEnd : String :=
  "\"\n  \x7d,\n  \"recommendation\": \"Brief 1-2 sentence recommendation focusing on entry timing and setup quality\",\n  \"risks\": [\"risk 1\", \"risk 2\", \"risk 3\"]\n\x7d\n\nRules:\n- STRONG BUY: 9-10 (excellent setup, all indicators aligned)\n- BUY: 7-8 (good setup, most indicators positive)\n- HOLD: 5-6 (mixed signals, wait for confirmation)\n- AVOID: 0-4 (poor setup or elevated risk)\n- Keep recommendation under 150 characters\n- List 2-3 specific risks\n- Be conservative - favor HOLD over BUY if uncertain"

/-- Prompt opening: instruction text and the `STOCK:` line. -/
def pIntro (ticker : String) : String :=
  "You are an expert options trading analyst. Based on the technical data below, provide a final assessment for naked call buying.\n\nSTOCK: "
    ++ ticker

/-- The `CURRENT PRICE` line: raw interpolation of the price. -/
def pPrice (td : Tech) : String :=
  "\nCURRENT PRICE: $" ++ jsNum td.current_price

/-- Indicator header and the `RSI` line: raw interpolation. -/
def pRsi (td : Tech) : String :=
  "\n\nTECHNICAL INDICATORS:\n- RSI (14-day): " ++ jsNum td.rsi

/-- The `MACD` line: `techData.macd.toFixed(4)`. -/
def pMacd (m : Rat) : String := "\n- MACD: " ++ toFixed m 4

/-- The `MACD Signal` line: `.toFixed(4)`. -/
def pMacdSig (ms : Rat) : String := "\n- MACD Signal: " ++ toFixed ms 4

/-- The `MACD Histogram` line: `.toFixed(4)`. -/
def pMacdHist (mh : Rat) : String := "\n- MACD Histogram: " ++ toFixed mh 4

/-- SMA, Bollinger, volume and earnings lines: raw interpolation. -/
def pSmas (td : Tech) : String :=
  "\n- 20-day SMA: $" ++ jsNum td.sma_20
    ++ "\n- 50-day SMA: $" ++ jsNum td.sma_50
    ++ "\n- Bollinger Upper: $" ++ jsNum td.bb_upper
    ++ "\n- Bollinger Lower: $" ++ jsNum td.bb_lower
    ++ "\n- Volume vs Average: " ++ jsNum td.volume_ratio
    ++ "x\n- Days Until Earnings: " ++ earningsStr td

/-- Technical-score and score-reasons lines: raw interpolation and
the join of `score_reasons` with a semicolon separator. -/
def pScore (td : Tech) (reasons : List String) : String :=
  "\n\nPYTHON TECHNICAL SCORE: " ++ jsNum td.technical_score
    ++ "/100\nSCORING REASONS: " ++ String.intercalate "; " reasons

/-- Fixed criteria text and the required-JSON block with the
interpolated ticker, derived strike and expiration. -/
def pShape (ticker : String) (td : Tech) (expiration : String) : String :=
  promptCriteria ++ ticker
    ++ promptShapeMid1 ++ otmStrike td
    ++ promptShapeMid2 ++ expiration
    ++ promptShapeEnd

/-- The rendered prompt, given the values of the four fields whose
absence would instead make the template throw (`macd`, `macd_signal`,
`macd_histogram` call `.toFixed`, `score_reasons` calls `.join`).  All
other fields interpolate with the default JS conversion.  The blocks are
concatenated in template order (grouped to the right). -/
def promptText (ticker : String) (td : Tech) (m ms mh : Rat)
    (reasons : List String) (expiration : String) : String :=
  pIntro ticker ++ (pPrice td ++ (pRsi td ++ (pMacd m ++ (pMacdSig ms ++
    (pMacdHist mh ++ (pSmas td ++ (pScore td reasons ++
      pShape ticker td expiration)))))))

/-- Render the per-ticker prompt.  Evaluating the template throws a
`TypeError` (modelled as `Except.error` with a stand-in message) exactly
when `macd`, `macd_signal` or `macd_histogram` (read before `.toFixed`)
or `score_reasons` (read before `.join`) is absent; the reads happen in
template order. -/
def buildPrompt (ticker : String) (td : Tech) (expiration : String) :
    Except String String :=
  match td.macd with
  | none => .error "Cannot read properties of undefined (reading toFixed)"
  | some m =>
    match td.macd_signal with
    | none => .error "Cannot read properties of undefined (reading toFixed)"
    | some ms =>
      match td.macd_histogram with
      | none => .error "Cannot read properties of undefined (reading toFixed)"
      | some mh =>
        match td.score_reasons with
        | none => .error "Cannot read properties of undefined (reading join)"
        | some reasons => .ok (promptText ticker td m ms mh reasons expiration)

/-! ## The per-ticker loop, sorting, summary and handler -/

/-- The error record pushed for a caught per-ticker failure:
`{ ticker, error, signal: "ERROR", score: 0 }`. -/
def errSignal (ticker msg : String) : Json :=
  .obj [("ticker", .str ticker), ("error", .str msg),
        ("signal", .str "ERROR"), ("score", .num 0)]

/-- One iteration of the per-ticker loop, given the gateway outcome for
this ticker.  An uncaught throw (absent technical-data element, or a
template `TypeError`) aborts with `Except.error`; gateway errors and
reply-parse failures are caught and converted to an error signal. -/
def stepTicker (ticker : String) (td? : Option Tech)
    (gwRes : Except String String) (expiration : String) :
    Except String Json :=
  match td? with
  | none => .error "Cannot read properties of undefined (reading current_price)"
  | some td =>
    match buildPrompt ticker td expiration with
    | .error m => .error m
    | .ok _prompt =>
      .ok (match gwRes with
        | .error m => errSignal ticker m
        | .ok txt =>
          match extractCandidate txt with
          | none => errSignal ticker "Could not parse AI response"
          | some cand =>
            match parseJson cand with
            | none => errSignal ticker "Unexpected token in JSON"
            | some analysis =>
              ((analysis.setField "technicalScore"
                  (match td.technical_score with
                   | some q => .num q
                   | none => .jsUndefined)).setField "company"
                (.str (companyOr td ticker))))

/-- The loop body from index `i` on: collect one signal per remaining
ticker (second component counts the gateway calls made). -/
def runLoopAux (tds : List Tech) (gw : Nat → Except String String)
    (expiration : String) : Nat → List String → Except String (List Json × Nat)
  | _, [] => .ok ([], 0)
  | i, ticker :: rest =>
    match stepTicker ticker tds[i]? (gw i) expiration with
    | .error m => .error m
    | .ok sig =>
      match runLoopAux tds gw expiration (i + 1) rest with
      | .error m => .error m
      | .ok (sigs, n) => .ok (sig :: sigs, n + 1)

/-- The whole `for` loop of the handler. -/
def runLoop (tickers : List String) (tds : List Tech)
    (gw : Nat → Except String String) (expiration : String) :
    Except String (List Json × Nat) :=
  runLoopAux tds gw expiration 0 tickers

/-- Model of `b.score || 0`: the score property if truthy, else `0`. -/
def scoreVal (s : Json) : Json :=
  let v := s.getField "score"
  if jsTruthy v then v else .num 0

/-- JS `ToNumber` on the values the comparator can see (`none` models
`NaN`).  String-to-number conversion accepts optional-sign decimal
numerals (the `Infinity`/hex forms never arise here); arrays and objects
coerce through `toString` and are modelled as `NaN` - no theorem in this
file depends on those cases. -/
def toNum : Json → Option Rat
  | .num q => some q
  | .null => some 0
  | .bool b => some (if b then 1 else 0)
  | .jsUndefined => none
  | .str s =>
    match jsTrim s.data with
    | [] => some 0
    | cs =>
      match parseNumber (match cs with | '+' :: rest => rest | _ => cs) with
      | some (q, []) => some q
      | _ => none
  | .arr _ => none
  | .obj _ => none

/-- The effective numeric sort key of a signal: `ToNumber(s.score || 0)`,
`none` when it is `NaN`. -/
def effScore (s : Json) : Option Rat := toNum (scoreVal s)

/-- The numeric rank a signal sorts by, when its effective score is a
number (`0` as an unused default otherwise). -/
def rankOf (s : Json) : Rat := (effScore s).getD 0

/-- The sort comparator `(a, b) => (b.score || 0) - (a.score || 0)`, with
a `NaN` result treated as `+0` as ECMA-262 `SortCompare` specifies. -/
def cmpJs (a b : Json) : Rat :=
  match effScore b, effScore a with
  | some sb, some sa => sb - sa
  | _, _ => 0

/-- Model of `signals.sort(...)`: `Array.prototype.sort` is required to be stable,
and with a consistent comparator every stable sort produces the same
list, so the sort of the code is embedded as a stable insertion sort placing
an earlier element before a later one whenever the comparator does not
order it strictly after. -/
def sortSignals (l : List Json) : List Json :=
  l.insertionSort (fun a b => cmpJs a b ≤ 0)

/-- Model of the strict comparison of the signal property with `lbl` (non-strings never match). -/
def sigLabelIs (lbl : String) (s : Json) : Bool :=
  match s.getField "signal" with
  | .str v => v == lbl
  | _ => false

/-- The `summary` object of the 200 response. -/
structure Summary where
  total : Nat
  strongBuy : Nat
  buy : Nat
  hold : Nat
  avoid : Nat
  errors : Nat

/-- Compute the summary from the final signals list, exactly as the
response literal does. -/
def mkSummary (signals : List Json) : Summary where
  total := signals.length
  strongBuy := (signals.filter (sigLabelIs "STRONG BUY")).length
  buy := (signals.filter (sigLabelIs "BUY")).length
  hold := (signals.filter (sigLabelIs "HOLD")).length
  avoid := (signals.filter (sigLabelIs "AVOID")).length
  errors := (signals.filter (sigLabelIs "ERROR")).length

/-- The body of a 200 response. -/
structure Ok200 where
  success : Bool
  timestamp : String
  model : String
  signals : List Json
  summary : Summary
  cost_estimate : String

/-- Outcome of a POST request: 400 with an error message, 200 with a body
(paired with the number of gateway calls made), or 500 with error,
message and timestamp. -/
inductive HandlerResult where
  | badRequest : String → HandlerResult
  | ok : Ok200 → Nat → HandlerResult
  | serverError : String → String → String → HandlerResult

/-- The parsed POST body.  `none` models a `tickers` / `technical_data`
that is missing or fails `Array.isArray` (both are rejected the same
way). -/
structure Req where
  tickers : Option (List String)
  technical_data : Option (List Tech)

/-- The handler (POST path, after CORS/method dispatch): validate,
run the per-ticker loop, sort, summarize.  `expiration` and `timestamp`
stand in for the ambient dates; `gw` is the gateway oracle. -/
def handler (req : Req) (gw : Nat → Except String String)
    (expiration timestamp : String) : HandlerResult :=
  match req.tickers with
  | none => .badRequest "Invalid request. Please provide tickers array."
  | some tickers =>
    match req.technical_data with
    | none => .badRequest "Invalid request. Please provide technical_data array."
    | some tds =>
      match runLoop tickers tds gw expiration with
      | .error m => .serverError "Analysis failed" m timestamp
      | .ok (signals, calls) =>
        let sorted := sortSignals signals
        .ok
          { success := true
            timestamp := timestamp
            model := "claude-haiku-4.5"
            signals := sorted
            summary := mkSummary sorted
            cost_estimate := "$" ++ toFixed ((tickers.length : Rat) * (1 / 50)) 2 }
          calls

/-- Observation: is the result a 400 invalid-request rejection? -/
def HandlerResult.isInvalidRequest : HandlerResult → Bool
  | .badRequest _ => true
  | _ => false

/-- The signal produced by iteration `j` of the loop (meaningful when
that iteration does not throw; `jsUndefined` is a placeholder otherwise). -/
def stepSig (tks : List String) (tds : List Tech)
    (gw : Nat → Except String String) (e : String) (j : Nat) : Json :=
  match stepTicker (tks.getD j "") tds[j]? (gw j) e with
  | .ok s => s
  | .error _ => .jsUndefined

/-! ## Concrete fixtures for witnesses and counterexamples -/

/-- A fully-populated technical-data record. -/
def tdFull : Tech :=
  { current_price := some 200, rsi := some 55, macd := some (1 / 2),
    macd_signal := some (2 / 5), macd_histogram := some (1 / 10),
    sma_20 := some 195, sma_50 := some 190, bb_upper := some 210,
    bb_lower := some 185, volume_ratio := some (3 / 2),
    days_until_earnings := some 20, technical_score := some 80,
    score_reasons := some ["momentum", "trend"], company := some "Apple" }

/-- Record `tdFull` with current price 100.5 (a one-decimal price). -/
def tdHalfPrice : Tech := { tdFull with current_price := some (201 / 2) }

/-- Record `tdFull` with the `macd` key absent. -/
def tdNoMacd : Tech := { tdFull with macd := none }

/-- Record `tdFull` with the `rsi` key absent. -/
def tdNoRsi : Tech := { tdFull with rsi := none }

/-- A reply whose full text is a raw JSON object. -/
def replyBuy : String :=
  "\x7b\"ticker\": \"AAPL\", \"signal\": \"BUY\", \"score\": 7\x7d"

/-- A reply with a different signal and score, for sorting runs. -/
def replyStrong : String :=
  "\x7b\"ticker\": \"MSFT\", \"signal\": \"STRONG BUY\", \"score\": 9\x7d"

/-- The signal object produced from `replyBuy` for ticker `"AAPL"` with
technical data `tdFull`. -/
def sigBuy : Json :=
  .obj [("ticker", .str "AAPL"), ("signal", .str "BUY"), ("score", .num 7),
        ("technicalScore", .num 80), ("company", .str "Apple")]

/-- The signal object produced from `replyStrong` for ticker `"MSFT"`
with technical data `tdFull`. -/
def sigStrong : Json :=
  .obj [("ticker", .str "MSFT"), ("signal", .str "STRONG BUY"), ("score", .num 9),
        ("technicalScore", .num 80), ("company", .str "Apple")]

/-- Gateway oracle answering every call with `replyBuy`. -/
def gwBuy : Nat → Except String String := fun _ => .ok replyBuy

/-- Gateway oracle: first call throws, second answers `replyBuy`,
third answers `replyStrong`. -/
def gwMixed : Nat → Except String String := fun i =>
  if i = 0 then .error "rate limited" else if i = 1 then .ok replyBuy else .ok replyStrong

/-- The 200 body produced by analyzing `["AAPL"]` with `tdFull` against
`gwBuy` (timestamp `"TS"`). -/
def okBody6 : Ok200 :=
  ⟨true, "TS", "claude-haiku-4.5", [sigBuy], ⟨1, 0, 1, 0, 0, 0⟩, "$0.02"⟩

/-- The 200 body produced by analyzing three tickers against `gwMixed`
(timestamp `"TS"`): gateway failure, BUY 7, STRONG BUY 9 - sorted by
descending score. -/
def okBody7 : Ok200 :=
  ⟨true, "TS", "claude-haiku-4.5",
    [sigStrong, sigBuy, errSignal "AAPL" "rate limited"],
    ⟨3, 1, 1, 0, 0, 1⟩, "$0.06"⟩

/-- The 200 body produced by analyzing `["AAPL", "MSFT"]` against
`gwMixed` (timestamp `"TS"`): the gateway call of the first ticker throws and
degrades to an error signal, the second parses to BUY 7. -/
def okBody3 : Ok200 :=
  ⟨true, "TS", "claude-haiku-4.5",
    [sigBuy, errSignal "AAPL" "rate limited"],
    ⟨2, 0, 1, 0, 0, 1⟩, "$0.04"⟩

example : parseJson "\x7b\"a\": 1\x7d" = some (.obj [("a", .num 1)]) := by rfl
example : parseJson "\x7b\"a\": 1\x7d x" = none := by rfl
example : parseJson " [1.5, -2, \"hi\", true, null] " =
    some (.arr [.num (3 / 2), .num (-2), .str "hi", .bool true, .null]) := by rfl
example : toFixed 110 2 = "110.00" := by rfl
example : toFixed (1 / 50) 2 = "0.02" := by rfl
example : ratToJs (201 / 2) = "100.5" := by rfl
example : ratToJs 80 = "80" := by rfl
example : extractCandidate "\x60\x60\x60json\n\x7b\"a\": 1\x7d\n\x60\x60\x60" =
    some "\x7b\"a\": 1\x7d" := by rfl
example : extractCandidate "Result: \x7b\"a\": 1\x7d done" = some "\x7b\"a\": 1\x7d" := by rfl
example : parseResponse "Result: \x7b\"a\": 1\x7d done\x7d" = none := by rfl
example : specOrderedParse "Result: \x7b\"a\": 1\x7d done\x7d" =
    some (.obj [("a", .num 1)]) := by rfl

/-! ## String-infix helper lemmas -/

theorem str_infix_self (a y : String) : a.data <:+: (a ++ y).data :=
  ⟨[], y.data, by simp [String.data_append]⟩

theorem str_infix_end (x a : String) : a.data <:+: (x ++ a).data :=
  ⟨x.data, [], by simp [String.data_append]⟩

theorem str_infix_skip (s t : String) (a : List Char) (h : a <:+: t.data) :
    a <:+: (s ++ t).data := by
  obtain ⟨u, v, huv⟩ := h
  exact ⟨s.data ++ u, v, by simp [String.data_append, ← huv, List.append_assoc]⟩

theorem str_infix_left (x y : String) (a : List Char) (h : a <:+: x.data) :
    a <:+: (x ++ y).data := by
  obtain ⟨u, v, huv⟩ := h
  exact ⟨u, v ++ y.data, by simp [String.data_append, ← huv, List.append_assoc]⟩

/-! ## C10 -/

/-- C10: for a request whose `tickers` is the empty array (and whose
`technical_data` is any array), the handler returns 200 with
`success: true`, no signals, an all-zero summary, cost estimate
`"$0.00"`, and performs no gateway call. -/
theorem c10_empty_tickers_ok (tds : List Tech) (gw : Nat → Except String String)
    (expiration timestamp : String) :
    handler ⟨some [], some tds⟩ gw expiration timestamp =
      .ok ⟨true, timestamp, "claude-haiku-4.5", [], ⟨0, 0, 0, 0, 0, 0⟩, "$0.00"⟩ 0 :=
  rfl

/-! ## C1 -/

/-- C1 counterexample: the request with `tickers: []` (and
`technical_data: []`) is not rejected with a 400 error - it succeeds
with a 200 empty analysis, so the validator does not require a non-empty
`tickers` array. -/
theorem c1_empty_request_not_rejected :
    handler ⟨some [], some []⟩ (fun _ => .error "unreached") "Jan 10, 2026" "TS" =
      .ok ⟨true, "TS", "claude-haiku-4.5", [], ⟨0, 0, 0, 0, 0, 0⟩, "$0.00"⟩ 0 :=
  rfl

/-- C1 (amended): the handler rejects a request with a 400
invalid-request error exactly when `tickers` or `technical_data` is
missing or not an array; emptiness and length agreement are not
validated, and any request with both fields present as arrays proceeds
to the analysis phase. -/
theorem c1_validation_iff (req : Req) (gw : Nat → Except String String)
    (expiration timestamp : String) :
    (handler req gw expiration timestamp).isInvalidRequest =
      (req.tickers.isNone || req.technical_data.isNone) := by
  obtain ⟨tk?, td?⟩ := req
  cases tk? with
  | none => rfl
  | some tks =>
    cases td? with
    | none => rfl
    | some tds =>
      simp only [handler]
      cases h : runLoop tks tds gw expiration with
      | error m => rfl
      | ok p => rfl

/-! ## C8 -/

/-- C8: any uncaught failure of the analysis phase (anything the
per-ticker catch does not absorb, such as a template `TypeError` on a
malformed record) surfaces as a 500 response carrying the error label
`"Analysis failed"` and the underlying message - never silently
swallowed. -/
theorem c8_top_level_500 (tks : List String) (tds : List Tech)
    (gw : Nat → Except String String) (expiration timestamp m : String)
    (h : runLoop tks tds gw expiration = .error m) :
    handler ⟨some tks, some tds⟩ gw expiration timestamp =
      .serverError "Analysis failed" m timestamp := by
  simp only [handler, h]

/-- C8 witness: a record with `macd` absent makes the template throw,
and the handler returns the 500 with that message. -/
theorem c8_witness :
    runLoop ["AAPL"] [tdNoMacd] gwBuy "Jan 10, 2026" =
      .error "Cannot read properties of undefined (reading toFixed)" ∧
    handler ⟨some ["AAPL"], some [tdNoMacd]⟩ gwBuy "Jan 10, 2026" "TS" =
      .serverError "Analysis failed"
        "Cannot read properties of undefined (reading toFixed)" "TS" :=
  ⟨rfl, c8_top_level_500 ["AAPL"] [tdNoMacd] gwBuy "Jan 10, 2026" "TS" _ rfl⟩

/-! ## C9 -/

/-- C9: for a record with a defined current price, the derived
out-of-the-money strike is `toFixed(price * 1.10, 2)`; at price 100 it
is the string `"110.00"`; and whenever the prompt renders, that strike
string is embedded in it. -/
theorem c9_otm_strike (td : Tech) (p : Rat) (h : td.current_price = some p) :
    otmStrike td = toFixed (p * (11 / 10)) 2 ∧
    (p = 100 → otmStrike td = "110.00") ∧
    (∀ tk e m ms mh rs, td.macd = some m → td.macd_signal = some ms →
      td.macd_histogram = some mh → td.score_reasons = some rs →
      buildPrompt tk td e = .ok (promptText tk td m ms mh rs e) ∧
      (otmStrike td).data <:+: (promptText tk td m ms mh rs e).data) := by
  refine ⟨by simp [otmStrike, h], ?_, ?_⟩
  · rintro rfl
    simp [otmStrike, h]
    rfl
  · intro tk e m ms mh rs hm hms hmh hrs
    constructor
    · simp [buildPrompt, hm, hms, hmh, hrs]
    · simp only [promptText]
      apply str_infix_skip
      apply str_infix_skip
      apply str_infix_skip
      apply str_infix_skip
      apply str_infix_skip
      apply str_infix_skip
      apply str_infix_skip
      apply str_infix_skip
      simp only [pShape]
      apply str_infix_left
      apply str_infix_left
      apply str_infix_left
      exact str_infix_end _ _

/-- C9 witness: the fixture record has price 200, strike
`toFixed(220, 2) = "220.00"`, and a record at price 100 yields
`"110.00"`. -/
theorem c9_witness :
    tdFull.current_price = some 200 ∧
    otmStrike tdFull = toFixed (200 * (11 / 10)) 2 ∧
    otmStrike tdFull = "220.00" ∧
    ({ tdFull with current_price := some 100 } : Tech).current_price = some 100 ∧
    otmStrike { tdFull with current_price := some 100 } = "110.00" := by
  refine ⟨rfl, (c9_otm_strike tdFull 200 rfl).1, by rfl, rfl,
    (c9_otm_strike { tdFull with current_price := some 100 } 100 rfl).2.1 rfl⟩

/-- Reassociation form of the self-infix: a two-block prefix of a
right-nested concatenation is an infix. -/
theorem str_infix_assoc (a b r : String) : (a ++ b).data <:+: (a ++ (b ++ r)).data := by
  rw [← String.append_assoc]
  exact str_infix_self _ _

/-! ## C2 -/

/-- C2 counterexample: on a record whose `macd` is absent, prompt
rendering throws (a `TypeError` from `.toFixed` on `undefined`) instead
of producing an `"N/A"` token. -/
theorem c2_counterexample :
    buildPrompt "AAPL" tdNoMacd "Jan 10, 2026" =
      .error "Cannot read properties of undefined (reading toFixed)" :=
  rfl

/-- C2 (amended): a record missing `macd`, `macd_signal`,
`macd_histogram` or `score_reasons` makes prompt rendering throw (the
top-level catch then answers 500); a missing `rsi` renders as the
literal `undefined` (never `"N/A"`) in the prompt. -/
theorem c2_missing_render (td : Tech) :
    ((td.macd = none ∨ td.macd_signal = none ∨ td.macd_histogram = none ∨
        td.score_reasons = none) →
      ∀ tk e, (buildPrompt tk td e).isOk = false) ∧
    (td.rsi = none →
      ∀ tk e m ms mh rs, td.macd = some m → td.macd_signal = some ms →
        td.macd_histogram = some mh → td.score_reasons = some rs →
        buildPrompt tk td e = .ok (promptText tk td m ms mh rs e) ∧
        ("\n\nTECHNICAL INDICATORS:\n- RSI (14-day): undefined\n- MACD: "
            ++ toFixed m 4).data <:+: (promptText tk td m ms mh rs e).data) := by
  constructor
  · intro h tk e
    rcases h with h | h | h | h <;>
      cases hm : td.macd <;> cases hs : td.macd_signal <;>
        cases hh : td.macd_histogram <;> cases hr : td.score_reasons <;>
      simp_all [buildPrompt, Except.isOk, Except.toBool]
  · intro h tk e m ms mh rs hm hms hmh hrs
    refine ⟨by simp [buildPrompt, hm, hms, hmh, hrs], ?_⟩
    have h1 : pRsi td = "\n\nTECHNICAL INDICATORS:\n- RSI (14-day): undefined" := by
      simp only [pRsi, h, jsNum]
      decide
    have h2 : ("\n\nTECHNICAL INDICATORS:\n- RSI (14-day): undefined\n- MACD: "
        ++ toFixed m 4) = pRsi td ++ pMacd m := by
      rw [h1]
      simp only [pMacd]
      rw [← String.append_assoc]
      congr 1
    rw [h2]
    simp only [promptText]
    apply str_infix_skip
    apply str_infix_skip
    exact str_infix_assoc _ _ _

/-- C2 witness: the fixtures exercise both branches of the amended
statement - throwing on a missing `macd`, rendering `undefined` for a
missing `rsi`. -/
theorem c2_witness :
    tdNoRsi.rsi = none ∧ tdNoRsi.macd = some (1 / 2) ∧
    buildPrompt "AAPL" tdNoRsi "Jan 10, 2026" =
      .ok (promptText "AAPL" tdNoRsi (1 / 2) (2 / 5) (1 / 10)
        ["momentum", "trend"] "Jan 10, 2026") ∧
    ("\n\nTECHNICAL INDICATORS:\n- RSI (14-day): undefined\n- MACD: "
        ++ toFixed (1 / 2) 4).data <:+:
      (promptText "AAPL" tdNoRsi (1 / 2) (2 / 5) (1 / 10)
        ["momentum", "trend"] "Jan 10, 2026").data ∧
    tdNoMacd.macd = none ∧
    (buildPrompt "AAPL" tdNoMacd "Jan 10, 2026").isOk = false := by
  have h := (c2_missing_render tdNoRsi).2 rfl "AAPL" "Jan 10, 2026"
    (1 / 2) (2 / 5) (1 / 10) ["momentum", "trend"] rfl rfl rfl rfl
  exact ⟨rfl, rfl, h.1, h.2, rfl,
    (c2_missing_render tdNoMacd).1 (Or.inl rfl) "AAPL" "Jan 10, 2026"⟩

/-! ## C5 -/

/-- C5 counterexample: with current price 100.5, the prompt renders
`CURRENT PRICE: $100.5` - one decimal, not the two decimals the claim
prescribes for prices (the interpolation is raw, not `toFixed(2)`). -/
theorem c5_counterexample :
    buildPrompt "AAPL" tdHalfPrice "Jan 10, 2026" =
      .ok (promptText "AAPL" tdHalfPrice (1 / 2) (2 / 5) (1 / 10)
        ["momentum", "trend"] "Jan 10, 2026") ∧
    ("\nCURRENT PRICE: $100.5\n\nTECHNICAL INDICATORS:\n- RSI (14-day): 55").data <:+:
      (promptText "AAPL" tdHalfPrice (1 / 2) (2 / 5) (1 / 10)
        ["momentum", "trend"] "Jan 10, 2026").data := by
  refine ⟨rfl, ?_⟩
  have h2 : ("\nCURRENT PRICE: $100.5\n\nTECHNICAL INDICATORS:\n- RSI (14-day): 55" : String)
      = pPrice tdHalfPrice ++ pRsi tdHalfPrice := by decide
  rw [h2]
  simp only [promptText]
  apply str_infix_skip
  exact str_infix_assoc _ _ _

/-- C5 (amended): only the MACD family is rendered with a fixed
precision (4 decimals, via `toFixed`); the current price, RSI and the
other indicator values are interpolated with the default JS
number-to-string conversion, with no fixed decimal count. -/
theorem c5_formatting (td : Tech) (m ms mh : Rat) (rs : List String)
    (tk e : String) (hm : td.macd = some m) (hms : td.macd_signal = some ms)
    (hmh : td.macd_histogram = some mh) (hrs : td.score_reasons = some rs) :
    buildPrompt tk td e = .ok (promptText tk td m ms mh rs e) ∧
    ("\n- MACD: " ++ toFixed m 4 ++ "\n- MACD Signal: " ++ toFixed ms 4
        ++ "\n- MACD Histogram: " ++ toFixed mh 4).data <:+:
      (promptText tk td m ms mh rs e).data ∧
    ("\nCURRENT PRICE: $" ++ jsNum td.current_price
        ++ "\n\nTECHNICAL INDICATORS:\n- RSI (14-day): " ++ jsNum td.rsi).data <:+:
      (promptText tk td m ms mh rs e).data := by
  refine ⟨by simp [buildPrompt, hm, hms, hmh, hrs], ?_, ?_⟩
  · have h3 : ("\n- MACD: " ++ toFixed m 4 ++ "\n- MACD Signal: " ++ toFixed ms 4
        ++ "\n- MACD Histogram: " ++ toFixed mh 4)
        = pMacd m ++ (pMacdSig ms ++ pMacdHist mh) := by
      simp [pMacd, pMacdSig, pMacdHist, String.append_assoc]
    rw [h3]
    simp only [promptText]
    apply str_infix_skip
    apply str_infix_skip
    apply str_infix_skip
    rw [← String.append_assoc (pMacdSig ms) (pMacdHist mh)]
    exact str_infix_assoc _ _ _
  · have h4 : ("\nCURRENT PRICE: $" ++ jsNum td.current_price
        ++ "\n\nTECHNICAL INDICATORS:\n- RSI (14-day): " ++ jsNum td.rsi)
        = pPrice td ++ pRsi td := by
      simp [pPrice, pRsi, String.append_assoc]
    rw [h4]
    simp only [promptText]
    apply str_infix_skip
    exact str_infix_assoc _ _ _

/-- C5 witness: concrete rendering - MACD 0.5 prints `0.5000` (fixed 4
decimals) while price 100.5 prints `100.5` (raw). -/
theorem c5_witness :
    toFixed (1 / 2) 4 = "0.5000" ∧
    jsNum tdHalfPrice.current_price = "100.5" ∧
    tdHalfPrice.macd = some (1 / 2) ∧
    (buildPrompt "AAPL" tdHalfPrice "Jan 10, 2026" =
      .ok (promptText "AAPL" tdHalfPrice (1 / 2) (2 / 5) (1 / 10)
        ["momentum", "trend"] "Jan 10, 2026") ∧
    ("\n- MACD: " ++ toFixed (1 / 2) 4 ++ "\n- MACD Signal: " ++ toFixed (2 / 5) 4
        ++ "\n- MACD Histogram: " ++ toFixed (1 / 10) 4).data <:+:
      (promptText "AAPL" tdHalfPrice (1 / 2) (2 / 5) (1 / 10)
        ["momentum", "trend"] "Jan 10, 2026").data ∧
    ("\nCURRENT PRICE: $" ++ jsNum tdHalfPrice.current_price
        ++ "\n\nTECHNICAL INDICATORS:\n- RSI (14-day): " ++ jsNum tdHalfPrice.rsi).data <:+:
      (promptText "AAPL" tdHalfPrice (1 / 2) (2 / 5) (1 / 10)
        ["momentum", "trend"] "Jan 10, 2026").data) := by
  exact ⟨rfl, rfl, rfl,
    c5_formatting tdHalfPrice (1 / 2) (2 / 5) (1 / 10) ["momentum", "trend"]
      "AAPL" "Jan 10, 2026" rfl rfl rfl rfl⟩

/-! ## C6 -/

/-- C6: in every 200 response, each summary count equals the number of
elements of the final signals list carrying the corresponding label, and
`total` equals the length of the signals list. -/
theorem c6_summary_counts (req : Req) (gw : Nat → Except String String)
    (e t : String) (body : Ok200) (calls : Nat)
    (h : handler req gw e t = .ok body calls) :
    body.summary.total = body.signals.length ∧
    body.summary.strongBuy = (body.signals.filter (sigLabelIs "STRONG BUY")).length ∧
    body.summary.buy = (body.signals.filter (sigLabelIs "BUY")).length ∧
    body.summary.hold = (body.signals.filter (sigLabelIs "HOLD")).length ∧
    body.summary.avoid = (body.signals.filter (sigLabelIs "AVOID")).length ∧
    body.summary.errors = (body.signals.filter (sigLabelIs "ERROR")).length := by
  obtain ⟨tk?, td?⟩ := req
  cases tk? with
  | none => simp [handler] at h
  | some tks =>
    cases td? with
    | none => simp [handler] at h
    | some tds =>
      simp only [handler] at h
      cases hr : runLoop tks tds gw e with
      | error m => rw [hr] at h; cases h
      | ok p =>
        obtain ⟨sigs, n⟩ := p
        rw [hr] at h
        cases h
        exact ⟨rfl, rfl, rfl, rfl, rfl, rfl⟩

/-- C6 witness: a concrete one-ticker run; the body is `okBody6` and its
summary fields match the filter counts of its signals list. -/
theorem c6_witness :
    handler ⟨some ["AAPL"], some [tdFull]⟩ gwBuy "Jan 10, 2026" "TS" = .ok okBody6 1 ∧
    (okBody6.summary.total = okBody6.signals.length ∧
      okBody6.summary.strongBuy = (okBody6.signals.filter (sigLabelIs "STRONG BUY")).length ∧
      okBody6.summary.buy = (okBody6.signals.filter (sigLabelIs "BUY")).length ∧
      okBody6.summary.hold = (okBody6.signals.filter (sigLabelIs "HOLD")).length ∧
      okBody6.summary.avoid = (okBody6.signals.filter (sigLabelIs "AVOID")).length ∧
      okBody6.summary.errors = (okBody6.signals.filter (sigLabelIs "ERROR")).length) :=
  ⟨rfl, c6_summary_counts ⟨some ["AAPL"], some [tdFull]⟩ gwBuy "Jan 10, 2026" "TS"
    okBody6 1 rfl⟩

/-! ## Extraction lemmas for C4 -/

theorem stripTokF_nil (t0 : Char) (ts : List Char) (fuel : Nat) :
    stripTokF t0 ts fuel [] = [] := by
  cases fuel <;> rfl

theorem stripTokF_append (t0 : Char) (ts : List Char) (l : List Char)
    (hl : ∀ c ∈ l, c ≠ t0) (r : List Char) :
    ∀ fuel, l.length ≤ fuel →
      stripTokF t0 ts fuel (l ++ r) = l ++ stripTokF t0 ts (fuel - l.length) r := by
  induction l with
  | nil => intro fuel _; simp
  | cons c l ih =>
    intro fuel hf
    cases fuel with
    | zero => simp at hf
    | succ fuel =>
      have hc : c ≠ t0 := hl c (List.mem_cons_self c l)
      have hne : (c :: (l ++ r)).take (ts.length + 1) ≠ t0 :: ts := by
        rw [List.take_succ_cons]
        intro h
        exact hc (List.cons.inj h).1
      simp only [List.cons_append, stripTokF, List.append_eq]
      rw [if_neg hne]
      rw [ih (fun c2 hc2 => hl c2 (List.mem_cons_of_mem _ hc2)) fuel (Nat.le_of_succ_le_succ hf)]
      simp [Nat.succ_sub_succ]

theorem stripTokF_of_free (t0 : Char) (ts : List Char) (l : List Char)
    (hl : ∀ c ∈ l, c ≠ t0) (fuel : Nat) (hf : l.length ≤ fuel) :
    stripTokF t0 ts fuel l = l := by
  have h := stripTokF_append t0 ts l hl [] fuel (by simpa using hf)
  simpa [stripTokF_nil] using h

theorem stripJsonFences_free (l : List Char) (hl : ∀ c ∈ l, c ≠ '\x60') :
    stripJsonFences l = l :=
  stripTokF_of_free _ _ l hl l.length (Nat.le_refl _)

theorem stripPlainFences_free (l : List Char) (hl : ∀ c ∈ l, c ≠ '\x60') :
    stripPlainFences l = l :=
  stripTokF_of_free _ _ l hl l.length (Nat.le_refl _)

theorem dropWhile_append_all (p : Char → Bool) (A B : List Char)
    (hA : ∀ c ∈ A, p c = true) :
    (A ++ B).dropWhile p = B.dropWhile p := by
  induction A with
  | nil => simp
  | cons a A ih =>
    simp only [List.cons_append, List.dropWhile_cons, hA a (List.mem_cons_self a A), if_true]
    exact ih (fun c hc => hA c (List.mem_cons_of_mem _ hc))

theorem dropWhile_append_far (p : Char → Bool) (A : List Char) (b : Char) (bs : List Char)
    (hb : p b = false) :
    (A ++ b :: bs).dropWhile p = A.dropWhile p ++ b :: bs := by
  induction A with
  | nil => simp [List.dropWhile_cons, hb]
  | cons a A ih =>
    by_cases ha : p a = true
    · simp only [List.cons_append, List.dropWhile_cons, ha, if_true]
      exact ih
    · simp [List.cons_append, List.dropWhile_cons, ha]

theorem jsTrim_pad (a b : Char) (mid pre post : List Char)
    (ha : isJsTrimWs a = false) (hb : isJsTrimWs b = false)
    (hpre : ∀ c ∈ pre, isJsTrimWs c = true)
    (hpost : ∀ c ∈ post, isJsTrimWs c = true) :
    jsTrim (pre ++ (a :: mid ++ [b]) ++ post) = a :: mid ++ [b] := by
  simp only [jsTrim]
  rw [List.append_assoc, dropWhile_append_all _ pre _ hpre]
  have h1 : ((a :: mid ++ [b]) ++ post).dropWhile isJsTrimWs
      = a :: (mid ++ [b] ++ post) := by
    simp [List.dropWhile_cons, ha, List.append_assoc]
  rw [h1]
  have h2 : (a :: (mid ++ [b] ++ post)).reverse
      = post.reverse ++ (b :: (mid.reverse ++ [a])) := by
    simp
  rw [h2, dropWhile_append_all _ post.reverse _ (fun c hc => hpost c (List.mem_reverse.mp hc))]
  have h3 : (b :: (mid.reverse ++ [a])).dropWhile isJsTrimWs
      = b :: (mid.reverse ++ [a]) := by
    simp [List.dropWhile_cons, hb]
  rw [h3]
  simp

theorem jsTrim_prose (p1 p2 mid : List Char) :
    jsTrim (p1 ++ ('\x7b' :: mid ++ ['\x7d']) ++ p2)
      = p1.dropWhile isJsTrimWs ++ ('\x7b' :: mid ++ ['\x7d'])
          ++ (p2.reverse.dropWhile isJsTrimWs).reverse := by
  simp only [jsTrim]
  have hx : ('\x7b' :: mid ++ ['\x7d']) ++ p2 = '\x7b' :: (mid ++ ['\x7d'] ++ p2) := by
    simp [List.append_assoc]
  rw [List.append_assoc, hx, dropWhile_append_far _ p1 '\x7b' _ (by decide)]
  have h2 : (p1.dropWhile isJsTrimWs ++ '\x7b' :: (mid ++ ['\x7d'] ++ p2)).reverse
      = p2.reverse ++ ('\x7d' :: (mid.reverse ++ ('\x7b' :: (p1.dropWhile isJsTrimWs).reverse))) := by
    simp
  rw [h2, dropWhile_append_far _ p2.reverse '\x7d' _ (by decide)]
  simp [List.append_assoc]

theorem braceMatch_mid (q1 q2 mid : List Char)
    (h1 : ∀ c ∈ q1, c ≠ '\x7b') (h2 : ∀ c ∈ q2, c ≠ '\x7d') :
    braceMatch (q1 ++ ('\x7b' :: mid ++ ['\x7d']) ++ q2)
      = some ('\x7b' :: mid ++ ['\x7d']) := by
  simp only [braceMatch]
  have hq1 : ∀ c ∈ q1, (!(c == '\x7b')) = true := by
    intro c hc
    simpa using h1 c hc
  have hx : ('\x7b' :: mid ++ ['\x7d']) ++ q2 = '\x7b' :: (mid ++ ['\x7d'] ++ q2) := by
    simp [List.append_assoc]
  rw [List.append_assoc, hx, dropWhile_append_all _ q1 _ hq1]
  have h3 : ('\x7b' :: (mid ++ ['\x7d'] ++ q2)).dropWhile (fun c => !(c == '\x7b'))
      = '\x7b' :: (mid ++ ['\x7d'] ++ q2) := by
    simp [List.dropWhile_cons]
  rw [h3]
  have h4 : ('\x7b' :: (mid ++ ['\x7d'] ++ q2)).reverse
      = q2.reverse ++ ('\x7d' :: (mid.reverse ++ ['\x7b'])) := by
    simp
  have hq2 : ∀ c ∈ q2.reverse, (!(c == '\x7d')) = true := by
    intro c hc
    simpa using h2 c (List.mem_reverse.mp hc)
  rw [h4, dropWhile_append_all _ q2.reverse _ hq2]
  have h5 : ('\x7d' :: (mid.reverse ++ ['\x7b'])).dropWhile (fun c => !(c == '\x7d'))
      = '\x7d' :: (mid.reverse ++ ['\x7b']) := by
    simp [List.dropWhile_cons]
  rw [h5]
  simp

theorem braceMatch_obj (mid : List Char) :
    braceMatch ('\x7b' :: mid ++ ['\x7d']) = some ('\x7b' :: mid ++ ['\x7d']) := by
  have h := braceMatch_mid [] [] mid (by simp) (by simp)
  simpa using h

theorem jsTrim_obj (mid : List Char) :
    jsTrim ('\x7b' :: mid ++ ['\x7d']) = '\x7b' :: mid ++ ['\x7d'] := by
  have h := jsTrim_pad '\x7b' '\x7d' mid [] [] (by decide) (by decide)
    (by simp) (by simp)
  simpa using h

theorem string_eta (s : String) : String.mk s.data = s := rfl


theorem extractCandidate_raw (s : String) (mid : List Char)
    (hs : s.data = '\x7b' :: mid ++ ['\x7d'])
    (hnb : ∀ c ∈ s.data, c ≠ '\x60') :
    extractCandidate s = some s := by
  simp only [extractCandidate, stripJsonFences_free s.data hnb,
    stripPlainFences_free s.data hnb]
  rw [hs, jsTrim_obj, braceMatch_obj, ← hs]
  rfl

theorem stripTokF_head (t0 : Char) (ts r : List Char) (fuel : Nat) :
    stripTokF t0 ts (fuel + 1) ((t0 :: ts) ++ r) = stripTokF t0 ts fuel (dropNl r) := by
  have htake : List.take (ts.length + 1) (t0 :: (ts ++ r)) = t0 :: ts := by
    rw [List.take_succ_cons]
    congr 1
    exact List.take_left ts r
  have hdrop : List.drop (ts.length + 1) (t0 :: (ts ++ r)) = r := by
    rw [List.drop_succ_cons]
    exact List.drop_left ts r
  simp only [List.cons_append, stripTokF, List.append_eq]
  rw [if_pos htake, hdrop]

theorem stripJsonFences_head (r : List Char) :
    stripJsonFences (('\x60' :: jsonFenceTail) ++ r)
      = stripTokF '\x60' jsonFenceTail (jsonFenceTail ++ r).length (dropNl r) := by
  simp only [stripJsonFences]
  rw [show (('\x60' :: jsonFenceTail) ++ r).length = (jsonFenceTail ++ r).length + 1 by simp]
  exact stripTokF_head _ _ _ _

theorem jsTrim_obj_nl (mid : List Char) :
    jsTrim (('\x7b' :: mid ++ ['\x7d']) ++ ['\n']) = '\x7b' :: mid ++ ['\x7d'] := by
  have h := jsTrim_pad '\x7b' '\x7d' mid [] ['\n'] (by decide) (by decide)
    (by simp) (by decide)
  simpa using h

theorem extractCandidate_fenced (s : String) (mid : List Char)
    (hs : s.data = '\x7b' :: mid ++ ['\x7d'])
    (hnb : ∀ c ∈ s.data, c ≠ '\x60') :
    extractCandidate ("\x60\x60\x60json\n" ++ s ++ "\n\x60\x60\x60") = some s := by
  have hjfence : jsonFenceTail = ['\x60', '\x60', 'j', 's', 'o', 'n'] := rfl
  have hpfence : plainFenceTail = ['\x60', '\x60'] := rfl
  have hdata : ("\x60\x60\x60json\n" ++ s ++ "\n\x60\x60\x60").data
      = ('\x60' :: jsonFenceTail)
          ++ ('\n' :: (s.data ++ ('\n' :: ('\x60' :: plainFenceTail)))) := by
    simp only [String.data_append, hjfence, hpfence]
    rfl
  have hjl : jsonFenceTail.length = 6 := by decide
  have hpl : plainFenceTail.length = 2 := by decide
  simp only [extractCandidate, hdata, stripJsonFences_head]
  rw [show dropNl ('\n' :: (s.data ++ ('\n' :: ('\x60' :: plainFenceTail))))
      = s.data ++ ('\n' :: ('\x60' :: plainFenceTail)) from rfl]
  rw [stripTokF_append '\x60' jsonFenceTail s.data hnb _ _
    (by simp [hjl]; omega)]
  rw [show (jsonFenceTail ++ '\n' :: (s.data ++ '\n' :: '\x60' :: plainFenceTail)).length
        - s.data.length = 11 from by simp [hjl, hpl]; omega]
  rw [show stripTokF '\x60' jsonFenceTail 11 ('\n' :: ('\x60' :: plainFenceTail))
      = '\n' :: ('\x60' :: plainFenceTail) from by decide]
  simp only [stripPlainFences]
  rw [stripTokF_append '\x60' plainFenceTail s.data hnb _ _ (by simp)]
  rw [show (s.data ++ '\n' :: '\x60' :: plainFenceTail).length - s.data.length = 4
    from by simp [hpl]]
  rw [show stripTokF '\x60' plainFenceTail 4 ('\n' :: ('\x60' :: plainFenceTail))
      = ['\n'] from by decide]
  rw [hs, jsTrim_obj_nl, braceMatch_obj, ← hs]
  rfl

theorem extractCandidate_prose (p1 s p2 : String) (mid : List Char)
    (hs : s.data = '\x7b' :: mid ++ ['\x7d'])
    (hnb : ∀ c ∈ s.data, c ≠ '\x60')
    (hp1 : ∀ c ∈ p1.data, c ≠ '\x60' ∧ c ≠ '\x7b' ∧ c ≠ '\x7d')
    (hp2 : ∀ c ∈ p2.data, c ≠ '\x60' ∧ c ≠ '\x7b' ∧ c ≠ '\x7d') :
    extractCandidate (p1 ++ s ++ p2) = some s := by
  have hdata : (p1 ++ s ++ p2).data = p1.data ++ s.data ++ p2.data := by
    simp [String.data_append]
  have hfree : ∀ c ∈ p1.data ++ s.data ++ p2.data, c ≠ '\x60' := by
    intro c hc
    rcases List.mem_append.mp hc with hc1 | hc2
    · rcases List.mem_append.mp hc1 with h | h
      · exact (hp1 c h).1
      · exact hnb c h
    · exact (hp2 c hc2).1
  simp only [extractCandidate, hdata]
  rw [stripJsonFences_free _ hfree, stripPlainFences_free _ hfree]
  rw [hs, jsTrim_prose]
  rw [braceMatch_mid _ _ mid
    (fun c hc => (hp1 c ((List.dropWhile_suffix _).sublist.subset hc)).2.1)
    (fun c hc => (hp2 c (List.mem_reverse.mp
      ((List.dropWhile_suffix _).sublist.subset (List.mem_reverse.mp hc)))).2.2)]
  rw [← hs]
  rfl

/-! ## C4 -/

/-- C4 counterexample: the parse is not the ordered strict / fenced /
first-top-level-brace sequence of attempts.  On a reply embedding the
object in prose with a later closing brace, the single regex of the code
pipeline (strip fences, then greedy first-`{`-to-last-`}`) captures an
unparseable span and fails, while the three-attempt algorithm the claim
describes succeeds on the same reply; so a prose-embedded form fails to
parse to the same object as the raw form. -/
theorem c4_counterexample :
    parseResponse "\x7b\"a\": 1\x7d" = some (.obj [("a", .num 1)]) ∧
    parseResponse "Result: \x7b\"a\": 1\x7d done\x7d" = none ∧
    specOrderedParse "Result: \x7b\"a\": 1\x7d done\x7d" = some (.obj [("a", .num 1)]) :=
  ⟨rfl, rfl, rfl⟩

/-- C4 (amended): the parser accepts (a) a raw JSON object reply, (b)
the same JSON in a markdown ```json fence, and (c) the same JSON
embedded in surrounding prose, and all three parse to the same
structured object - provided the JSON text contains no backtick and the
prose contains no brace or backtick, because the mechanism is a single
fence-strip plus greedy first-`{`-to-last-`}` extraction rather than
ordered parse attempts. -/
theorem c4_three_forms (s p1 p2 : String) (mid : List Char) (j : Json)
    (hs : s.data = '\x7b' :: mid ++ ['\x7d'])
    (hnb : ∀ c ∈ s.data, c ≠ '\x60')
    (hp1 : ∀ c ∈ p1.data, c ≠ '\x60' ∧ c ≠ '\x7b' ∧ c ≠ '\x7d')
    (hp2 : ∀ c ∈ p2.data, c ≠ '\x60' ∧ c ≠ '\x7b' ∧ c ≠ '\x7d')
    (hj : parseJson s = some j) :
    parseResponse s = some j ∧
    parseResponse ("\x60\x60\x60json\n" ++ s ++ "\n\x60\x60\x60") = some j ∧
    parseResponse (p1 ++ s ++ p2) = some j := by
  refine ⟨?_, ?_, ?_⟩ <;> simp only [parseResponse]
  · rw [extractCandidate_raw s mid hs hnb]
    simpa using hj
  · rw [extractCandidate_fenced s mid hs hnb]
    simpa using hj
  · rw [extractCandidate_prose p1 s p2 mid hs hnb hp1 hp2]
    simpa using hj

/-- C4 witness: the three concrete forms of `{"a": 1}` all parse to the
same object. -/
theorem c4_witness :
    ("\x7b\"a\": 1\x7d" : String).data = '\x7b' :: ("\"a\": 1".data) ++ ['\x7d'] ∧
    parseJson "\x7b\"a\": 1\x7d" = some (.obj [("a", .num 1)]) ∧
    (parseResponse "\x7b\"a\": 1\x7d" = some (.obj [("a", .num 1)]) ∧
      parseResponse ("\x60\x60\x60json\n" ++ "\x7b\"a\": 1\x7d" ++ "\n\x60\x60\x60") =
        some (.obj [("a", .num 1)]) ∧
      parseResponse ("Result: " ++ "\x7b\"a\": 1\x7d" ++ " ok") =
        some (.obj [("a", .num 1)])) :=
  ⟨rfl, rfl,
    c4_three_forms "\x7b\"a\": 1\x7d" "Result: " " ok" ("\"a\": 1".data)
      (.obj [("a", .num 1)]) rfl (by decide) (by decide) (by decide) rfl⟩

/-! ## Sorting lemmas for C7 -/

theorem cmpJs_le_iff (x y : Json) (qx qy : Rat)
    (hx : effScore x = some qx) (hy : effScore y = some qy) :
    cmpJs x y ≤ 0 ↔ qy ≤ qx := by
  simp [cmpJs, hx, hy, sub_nonpos]

theorem rankOf_eq (x : Json) (qx : Rat) (hx : effScore x = some qx) :
    rankOf x = qx := by
  simp [rankOf, hx]

theorem orderedInsert_pairwise_desc (x : Json) (l : List Json)
    (hx : (effScore x).isSome = true) (hl : ∀ y ∈ l, (effScore y).isSome = true)
    (h : l.Pairwise (fun a b => rankOf b ≤ rankOf a)) :
    (l.orderedInsert (fun u v => cmpJs u v ≤ 0) x).Pairwise
      (fun a b => rankOf b ≤ rankOf a) := by
  obtain ⟨qx, hqx⟩ := Option.isSome_iff_exists.mp hx
  induction l with
  | nil => simp [List.orderedInsert]
  | cons y ys ih =>
    obtain ⟨qy, hqy⟩ := Option.isSome_iff_exists.mp (hl y (List.mem_cons_self y ys))
    simp only [List.orderedInsert]
    by_cases hc : cmpJs x y ≤ 0
    · rw [if_pos hc]
      have hxy : rankOf y ≤ rankOf x := by
        rw [rankOf_eq x qx hqx, rankOf_eq y qy hqy]
        exact (cmpJs_le_iff x y qx qy hqx hqy).mp hc
      exact List.Pairwise.cons
        (fun b hb => by
          rcases List.mem_cons.mp hb with rfl | hb2
          · exact hxy
          · exact le_trans ((List.pairwise_cons.mp h).1 b hb2) hxy)
        h
    · rw [if_neg hc]
      have hyx : rankOf x ≤ rankOf y := by
        rw [rankOf_eq x qx hqx, rankOf_eq y qy hqy]
        exact le_of_lt (lt_of_not_le fun hle =>
          hc ((cmpJs_le_iff x y qx qy hqx hqy).mpr hle))
      exact List.Pairwise.cons
        (fun b hb => by
          rcases (List.mem_orderedInsert _).mp hb with rfl | hb2
          · exact hyx
          · exact (List.pairwise_cons.mp h).1 b hb2)
        (ih (fun z hz => hl z (List.mem_cons_of_mem _ hz)) (List.pairwise_cons.mp h).2)

theorem sortSignals_pairwise (l : List Json)
    (hl : ∀ y ∈ l, (effScore y).isSome = true) :
    (sortSignals l).Pairwise (fun a b => rankOf b ≤ rankOf a) := by
  induction l with
  | nil => simp [sortSignals, List.insertionSort]
  | cons x l ih =>
    have hsub : ∀ y ∈ l, (effScore y).isSome = true :=
      fun y hy => hl y (List.mem_cons_of_mem _ hy)
    have hperm := List.perm_insertionSort (fun u v => cmpJs u v ≤ 0) l
    simp only [sortSignals, List.insertionSort]
    exact orderedInsert_pairwise_desc x _ (hl x (List.mem_cons_self x l))
      (fun y hy => hsub y (hperm.mem_iff.mp hy)) (ih hsub)

theorem filter_orderedInsert_sig (q : Rat) (x : Json) (l : List Json)
    (hx : (effScore x).isSome = true) (hl : ∀ y ∈ l, (effScore y).isSome = true) :
    (l.orderedInsert (fun u v => cmpJs u v ≤ 0) x).filter
        (fun s => effScore s == some q)
      = if effScore x == some q
          then x :: l.filter (fun s => effScore s == some q)
          else l.filter (fun s => effScore s == some q) := by
  obtain ⟨qx, hqx⟩ := Option.isSome_iff_exists.mp hx
  induction l with
  | nil =>
    by_cases hp : (effScore x == some q) = true <;>
      simp [List.orderedInsert, List.filter, hp]
  | cons y ys ih =>
    obtain ⟨qy, hqy⟩ := Option.isSome_iff_exists.mp (hl y (List.mem_cons_self y ys))
    simp only [List.orderedInsert]
    by_cases hc : cmpJs x y ≤ 0
    · rw [if_pos hc]
      by_cases hp : (effScore x == some q) = true <;>
        simp [List.filter_cons, hp]
    · rw [if_neg hc]
      rw [List.filter_cons,
        ih (fun z hz => hl z (List.mem_cons_of_mem _ hz))]
      have hlt : qx < qy :=
        lt_of_not_le fun hle => hc ((cmpJs_le_iff x y qx qy hqx hqy).mpr hle)
      by_cases hp : (effScore x == some q) = true
      · have hqxq : qx = q := by
          rw [hqx] at hp
          simpa using hp
        have hyq : (effScore y == some q) = false := by
          rw [hqy, beq_eq_false_iff_ne]
          simp only [ne_eq, Option.some.injEq]
          rintro rfl
          exact absurd hqxq (ne_of_lt hlt)
        rw [hp, if_pos rfl]
        rw [List.filter_cons, hyq]
        simp [hyq]
      · rw [if_neg hp, if_neg hp]
        rw [List.filter_cons]

theorem sortSignals_filter (q : Rat) (l : List Json)
    (hl : ∀ y ∈ l, (effScore y).isSome = true) :
    (sortSignals l).filter (fun s => effScore s == some q)
      = l.filter (fun s => effScore s == some q) := by
  induction l with
  | nil => rfl
  | cons x l ih =>
    have hsub : ∀ y ∈ l, (effScore y).isSome = true :=
      fun y hy => hl y (List.mem_cons_of_mem _ hy)
    have hperm := List.perm_insertionSort (fun u v => cmpJs u v ≤ 0) l
    have ih2 : (List.insertionSort (fun u v => cmpJs u v ≤ 0) l).filter
        (fun s => effScore s == some q) = l.filter (fun s => effScore s == some q) :=
      ih hsub
    simp only [sortSignals, List.insertionSort]
    rw [filter_orderedInsert_sig q x _ (hl x (List.mem_cons_self x l))
      (fun y hy => hsub y (hperm.mem_iff.mp hy))]
    rw [ih2, List.filter_cons]

/-! ## C7 -/

/-- C7: in every 200 response whose signals all carry a numeric (or
falsy, hence effectively `0`) score, the signals list is the stable
descending-by-score sort of the per-ticker results: scores are pairwise
non-increasing, and for every score value the signals bearing it keep
the relative order they had before sorting. -/
theorem c7_sorted_stable (tks : List String) (tds : List Tech)
    (gw : Nat → Except String String) (e t : String) (sigs : List Json) (n : Nat)
    (h : runLoop tks tds gw e = .ok (sigs, n))
    (hnum : ∀ s ∈ sigs, (effScore s).isSome = true)
    (body : Ok200) (calls : Nat)
    (hb : handler ⟨some tks, some tds⟩ gw e t = .ok body calls) :
    body.signals = sortSignals sigs ∧
    body.signals.Pairwise (fun a b => rankOf b ≤ rankOf a) ∧
    ∀ q : Rat, body.signals.filter (fun s => effScore s == some q)
      = sigs.filter (fun s => effScore s == some q) := by
  simp only [handler, h] at hb
  cases hb
  exact ⟨rfl, sortSignals_pairwise sigs hnum, fun q => sortSignals_filter q sigs hnum⟩

/-- C7 witness: a three-ticker run (error signal with score 0, BUY 7,
STRONG BUY 9) sorts to 9, 7, 0 and keeps per-score order. -/
theorem c7_witness :
    runLoop ["AAPL", "AAPL", "MSFT"] [tdFull, tdFull, tdFull] gwMixed "Jan 10, 2026"
      = .ok ([errSignal "AAPL" "rate limited", sigBuy, sigStrong], 3) ∧
    (∀ s ∈ [errSignal "AAPL" "rate limited", sigBuy, sigStrong],
      (effScore s).isSome = true) ∧
    handler ⟨some ["AAPL", "AAPL", "MSFT"], some [tdFull, tdFull, tdFull]⟩
        gwMixed "Jan 10, 2026" "TS" = .ok okBody7 3 ∧
    (okBody7.signals = sortSignals [errSignal "AAPL" "rate limited", sigBuy, sigStrong] ∧
      okBody7.signals.Pairwise (fun a b => rankOf b ≤ rankOf a) ∧
      ∀ q : Rat, okBody7.signals.filter (fun s => effScore s == some q)
        = [errSignal "AAPL" "rate limited", sigBuy, sigStrong].filter
            (fun s => effScore s == some q)) :=
  ⟨rfl, by decide, rfl,
    c7_sorted_stable ["AAPL", "AAPL", "MSFT"] [tdFull, tdFull, tdFull] gwMixed
      "Jan 10, 2026" "TS" [errSignal "AAPL" "rate limited", sigBuy, sigStrong] 3
      rfl (by decide) okBody7 3 rfl⟩

/-! ## Loop lemmas for C3 -/

theorem stepTicker_isOk_exists (tk : String) (td? : Option Tech)
    (g : Except String String) (e : String)
    (h : (stepTicker tk td? g e).isOk = true) :
    ∃ s, stepTicker tk td? g e = .ok s := by
  cases hx : stepTicker tk td? g e with
  | error m => rw [hx] at h; simp [Except.isOk, Except.toBool] at h
  | ok s => exact ⟨s, rfl⟩

theorem runLoopAux_all_ok (tds : List Tech) (gw : Nat → Except String String)
    (e : String) :
    ∀ (ts : List String) (i0 : Nat),
      (∀ j, j < ts.length →
        (stepTicker (ts.getD j "") tds[i0 + j]? (gw (i0 + j)) e).isOk = true) →
      runLoopAux tds gw e i0 ts =
        .ok ((List.range ts.length).map
          (fun j => match stepTicker (ts.getD j "") tds[i0 + j]? (gw (i0 + j)) e with
            | .ok s => s
            | .error _ => .jsUndefined), ts.length) := by
  intro ts
  induction ts with
  | nil => intro i0 _; rfl
  | cons tk rest ih =>
    intro i0 hall
    have h0 : (stepTicker tk tds[i0]? (gw i0) e).isOk = true := by
      have := hall 0 (by simp)
      simpa using this
    obtain ⟨s0, hs0⟩ := stepTicker_isOk_exists _ _ _ _ h0
    have hshift : ∀ j, j < rest.length →
        (stepTicker (rest.getD j "") tds[(i0 + 1) + j]? (gw ((i0 + 1) + j)) e).isOk
          = true := by
      intro j hj
      have := hall (j + 1) (by simpa using Nat.succ_lt_succ hj)
      have e2 : i0 + (j + 1) = (i0 + 1) + j := by omega
      simpa [e2] using this
    simp only [runLoopAux]
    rw [hs0, ih (i0 + 1) hshift]
    dsimp only
    rw [List.length_cons, List.range_succ_eq_map, List.map_cons, List.map_map]
    congr 2
    simp [hs0]
    intro a ha
    rw [show i0 + (a + 1) = i0 + 1 + a from by omega]

/-! ## C3 -/

/-- C3: when every iteration renders its prompt (no uncaught throw), a
gateway failure or a reply-parse failure at ticker `i` is caught for
that ticker alone: the loop still completes with one signal per ticker,
ticker `i` contributes an error signal carrying the input ticker, label
`"ERROR"` and score 0, and the signal of every iteration - including all
later tickers - appears in the signals list of the 200 response. -/
theorem c3_per_ticker_isolation (tks : List String) (tds : List Tech)
    (gw : Nat → Except String String) (e t : String) (i : Nat) (hi : i < tks.length)
    (hall : ∀ j, j < tks.length →
      (stepTicker (tks.getD j "") tds[j]? (gw j) e).isOk = true)
    (hfail : (∃ m, gw i = .error m) ∨
      (∃ txt, gw i = .ok txt ∧ (extractCandidate txt).bind parseJson = none)) :
    runLoop tks tds gw e =
      .ok ((List.range tks.length).map (stepSig tks tds gw e), tks.length) ∧
    (stepSig tks tds gw e i).getField "ticker" = .str (tks.getD i "") ∧
    (stepSig tks tds gw e i).getField "signal" = .str "ERROR" ∧
    (stepSig tks tds gw e i).getField "score" = .num 0 ∧
    ∀ body calls, handler ⟨some tks, some tds⟩ gw e t = .ok body calls →
      ∀ j, j < tks.length → stepSig tks tds gw e j ∈ body.signals := by
  have hrun : runLoop tks tds gw e =
      .ok ((List.range tks.length).map (stepSig tks tds gw e), tks.length) := by
    have h := runLoopAux_all_ok tds gw e tks 0 (by
      intro j hj
      simpa [Nat.zero_add] using hall j hj)
    rw [runLoop, h]
    congr 1
    congr 1
    apply List.map_congr_left
    intro a _
    simp [stepSig, Nat.zero_add]
  have hokI := hall i hi
  obtain ⟨td, htd, p, hbp⟩ :
      ∃ td, tds[i]? = some td ∧
        ∃ p, buildPrompt (tks.getD i "") td e = .ok p := by
    cases htd : tds[i]? with
    | none =>
      rw [htd] at hokI
      simp only [stepTicker, Except.isOk, Except.toBool] at hokI
      exact absurd hokI (by decide)
    | some td =>
      cases hbp : buildPrompt (tks.getD i "") td e with
      | error m =>
        rw [htd] at hokI
        simp only [stepTicker] at hokI
        rw [hbp] at hokI
        simp only [Except.isOk, Except.toBool] at hokI
        exact absurd hokI (by decide)
      | ok p => exact ⟨td, rfl, p, hbp⟩
  obtain ⟨msg, hmsg⟩ :
      ∃ msg, stepSig tks tds gw e i = errSignal (tks.getD i "") msg := by
    rcases hfail with ⟨m, hm⟩ | ⟨txt, htxt, hparse⟩
    · refine ⟨m, ?_⟩
      simp only [stepSig]
      rw [htd]
      simp only [stepTicker]
      rw [hbp, hm]
    · cases hec : extractCandidate txt with
      | none =>
        refine ⟨"Could not parse AI response", ?_⟩
        simp only [stepSig]
        rw [htd]
        simp only [stepTicker]
        rw [hbp, htxt]
        dsimp only
        rw [hec]
      | some cand =>
        have hpj : parseJson cand = none := by
          rw [hec] at hparse
          simpa using hparse
        refine ⟨"Unexpected token in JSON", ?_⟩
        simp only [stepSig]
        rw [htd]
        simp only [stepTicker]
        rw [hbp, htxt]
        dsimp only
        rw [hec]
        dsimp only
        rw [hpj]
  refine ⟨hrun, by rw [hmsg]; rfl, by rw [hmsg]; rfl, by rw [hmsg]; rfl, ?_⟩
  intro body calls hb j hj
  simp only [handler, hrun] at hb
  cases hb
  have hmem : stepSig tks tds gw e j ∈ (List.range tks.length).map (stepSig tks tds gw e) :=
    List.mem_map.mpr ⟨j, List.mem_range.mpr hj, rfl⟩
  exact (List.perm_insertionSort _ _).mem_iff.mpr hmem

/-- C3 witness: a two-ticker run where the first gateway call throws -
the loop completes, ticker 0 degrades to an error signal, and both
signals of both iterations appear in the 200 response. -/
theorem c3_witness :
    (0 : Nat) < (["AAPL", "MSFT"] : List String).length ∧
    (∀ j, j < (["AAPL", "MSFT"] : List String).length →
      (stepTicker ((["AAPL", "MSFT"] : List String).getD j "")
        ([tdFull, tdFull] : List Tech)[j]? (gwMixed j) "Jan 10, 2026").isOk = true) ∧
    (∃ m, gwMixed 0 = .error m) ∧
    runLoop ["AAPL", "MSFT"] [tdFull, tdFull] gwMixed "Jan 10, 2026" =
      .ok ((List.range (["AAPL", "MSFT"] : List String).length).map
        (stepSig ["AAPL", "MSFT"] [tdFull, tdFull] gwMixed "Jan 10, 2026"),
        (["AAPL", "MSFT"] : List String).length) ∧
    (stepSig ["AAPL", "MSFT"] [tdFull, tdFull] gwMixed "Jan 10, 2026" 0).getField
      "signal" = .str "ERROR" ∧
    (stepSig ["AAPL", "MSFT"] [tdFull, tdFull] gwMixed "Jan 10, 2026" 0).getField
      "score" = .num 0 ∧
    handler ⟨some ["AAPL", "MSFT"], some [tdFull, tdFull]⟩ gwMixed
      "Jan 10, 2026" "TS" = .ok okBody3 2 ∧
    stepSig ["AAPL", "MSFT"] [tdFull, tdFull] gwMixed "Jan 10, 2026" 1
      ∈ okBody3.signals := by
  have h := c3_per_ticker_isolation ["AAPL", "MSFT"] [tdFull, tdFull] gwMixed
    "Jan 10, 2026" "TS" 0 (by decide) (by decide) (Or.inl ⟨"rate limited", rfl⟩)
  exact ⟨by decide, by decide, ⟨"rate limited", rfl⟩, h.1, h.2.2.1, h.2.2.2.1, rfl,
    h.2.2.2.2 okBody3 2 rfl 1 (by decide)⟩
